import Mathlib

/-!
Verification of the background analysis pipeline of the image-gallery
backend: the quota tracker and vision adapter
(`app/services/azure_vision.py`), the admission governor / orchestrator
(`app/services/ai_processing.py`), and the similarity scorer
(`app/api/search.py`).  Python floats are modelled as rationals, wall-clock
datetimes as integer second counts, Python dicts keyed by image id as
duplicate-free lists, and the network / database collaborators as explicit
outcome parameters and event traces.
-/

namespace Rescale

/-! ## Quota tracker: `AzureVisionService._check_rate_limit` -/

/-- Mutable usage-tracking state of `AzureVisionService`:
`request_times` (append-ordered timestamps, in seconds), `monthly_usage`,
`daily_usage`. -/
structure QuotaState where
  request_times : List Int
  monthly_usage : Nat
  daily_usage : Nat
deriving DecidableEq, Repr

/-- Scope of a quota-limit failure (the code raises `Exception` with a
distinct message per scope; the spec names them `QuotaExceeded(scope)`). -/
inductive QuotaScope where
  | month
  | day
deriving DecidableEq, Repr

/-- Result of one `_check_rate_limit` call: the error raised (if any), the
state after the call, and the number of seconds slept (0 when no wait). -/
structure RateLimitOutcome where
  error : Option QuotaScope
  state : QuotaState
  wait : Int
deriving DecidableEq, Repr

def MAX_REQUESTS_PER_MONTH : Nat := 4000

def MAX_REQUESTS_PER_DAY : Nat := 150

def MAX_REQUESTS_PER_MINUTE : Nat := 20

/-- `min(...)` of a Python list; the `[]` case never arises at use sites. -/
def listMin : List Int → Int
  | [] => 0
  | t :: ts => ts.foldl min t

/-- The pruning comprehension: keep timestamps younger than one hour. -/
def pruneTimes (times : List Int) (now : Int) : List Int :=
  times.filter (fun t => now - t < 3600)

/-- `AzureVisionService._check_rate_limit`, with `now` passed explicitly.
Prunes entries older than an hour, checks the monthly then the daily
ceiling (raising without recording), then the minute ceiling: if the count
of timestamps in the trailing 60 s has reached the ceiling it sleeps until
`min(request_times) + 60 s` (note: the minimum of the whole pruned list,
not of the minute window), then records `now` and increments both
counters. -/
def checkRateLimit (s : QuotaState) (now : Int) : RateLimitOutcome :=
  let pruned := pruneTimes s.request_times now
  if MAX_REQUESTS_PER_MONTH ≤ s.monthly_usage then
    { error := some .month, state := { s with request_times := pruned }, wait := 0 }
  else if MAX_REQUESTS_PER_DAY ≤ s.daily_usage then
    { error := some .day, state := { s with request_times := pruned }, wait := 0 }
  else
    let minuteRequests := (pruned.filter (fun t => now - t < 60)).length
    let wait :=
      if MAX_REQUESTS_PER_MINUTE ≤ minuteRequests then
        max (listMin pruned + 60 - now) 0
      else 0
    { error := none
      state := { request_times := pruned ++ [now]
                 monthly_usage := s.monthly_usage + 1
                 daily_usage := s.daily_usage + 1 }
      wait := wait }

/-- Fold a sequence of `_check_rate_limit` calls (one per attempt time)
through the tracker state. -/
def runQuota (s : QuotaState) : List Int → QuotaState
  | [] => s
  | t :: ts => runQuota (checkRateLimit s t).state ts

/-- Number of recorded timestamps inside the trailing 60-second window
ending at `now` (those with `now - 60 < t ≤ now`). -/
def minuteWindowCount (times : List Int) (now : Int) : Nat :=
  (times.filter (fun t => now - 60 < t ∧ t ≤ now)).length

/-! ## Executable arithmetic and string helpers.

`Rat.mul`/`Rat.add` are `@[irreducible]` in this toolchain, so the
embedding computes products and sums of rationals through `mkRat`
(provably equal to `*` and `+`, see `ratMul_eq` / `ratAdd_eq`); string
operations are defined on the character list so that concrete inputs
evaluate by `decide`. -/

/-- Exact product of two rationals, via `mkRat`. -/
def ratMul (a b : ℚ) : ℚ := mkRat (a.num * b.num) (a.den * b.den)

/-- Exact sum of two rationals, via `mkRat`. -/
def ratAdd (a b : ℚ) : ℚ := mkRat (a.num * b.den + b.num * a.den) (a.den * b.den)

/-- Floor of a rational (`den` is always positive, so euclidean division
of `num` by `den` is the floor). -/
def ratFloor (x : ℚ) : ℤ := Int.ediv x.num x.den

/-- Python `round()` on an exact rational: nearest integer, ties to even. -/
def pyRound (x : ℚ) : ℤ :=
  let n := ratFloor x
  let frac : ℚ := mkRat (x.num - n * (x.den : ℤ)) x.den
  if frac < mkRat 1 2 then n
  else if mkRat 1 2 < frac then n + 1
  else if n % 2 = 0 then n else n + 1

/-- Python `round(x, 3)`: round `x * 1000` to an integer, divide by 1000. -/
def round3 (x : ℚ) : ℚ := Rat.divInt (pyRound (ratMul x 1000)) 1000

/-- Python `str.strip()` on the character list: drop whitespace from both
ends. -/
def trimChars (l : List Char) : List Char :=
  ((l.dropWhile Char.isWhitespace).reverse.dropWhile Char.isWhitespace).reverse

/-- Python `str.strip()`. -/
def pyStrip (s : String) : String := String.mk (trimChars s.data)

/-- Python `str.startswith("#")`. -/
def startsWithHash (s : String) : Bool :=
  match s.data with
  | c :: _ => c = '#'
  | [] => false

/-- Python `str.split()` with no separator: split on whitespace runs,
dropping empty tokens. -/
def pySplitWs (s : String) : List String :=
  ((s.data.splitOnP Char.isWhitespace).map String.mk).filter (fun w => w ≠ "")

/-! ## Response normalization: `AzureVisionService._process_azure_response`
and its helpers `_clean_tags`, `_clean_description`, `_format_colors`,
`_color_name_to_hex`. -/

/-- Python `str.upper()` (ASCII case mapping, character-wise). -/
def upcase (s : String) : String :=
  String.mk (s.data.map Char.toUpper)

/-- Python `str.lower()` (ASCII case mapping, character-wise). -/
def downcase (s : String) : String :=
  String.mk (s.data.map Char.toLower)

/-- One tag object of the upstream payload: `{"name": ..., "confidence": ...}`;
`tag.get("confidence", 0)` is modelled by always carrying the value, with 0
standing for an absent field. -/
structure AzureTag where
  name : String
  confidence : ℚ
deriving DecidableEq, Repr

/-- The parts of the upstream JSON payload the normalizer reads.  `none`
models an absent key (`"tags" in data` etc.); `captions` is the list of
caption texts under `data["description"]["captions"]`. -/
structure AzurePayload where
  tags : Option (List AzureTag)
  captions : Option (List String)
  dominantColors : Option (List String)
deriving DecidableEq, Repr

/-- `AIProcessingResult` (fields persisted or returned by the adapter). -/
structure AIProcessingResult where
  tags : List String
  description : String
  dominant_colors : List String
  confidence_scores : List (String × ℚ)
  processing_time : ℚ
deriving DecidableEq, Repr

/-- Python dict insertion with insertion-order semantics: an existing key
keeps its position and gets the new value, a new key is appended. -/
def dictInsert (m : List (String × ℚ)) (k : String) (v : ℚ) : List (String × ℚ) :=
  if m.any (fun p => p.1 = k) then
    m.map (fun p => if p.1 = k then (k, v) else p)
  else m ++ [(k, v)]

/-- `AzureVisionService._clean_tags`: keep tags whose (original) length is
strictly between 2 and 50, lowercase and strip each, cap to 8. -/
def cleanTags (tags : List String) : List String :=
  ((tags.filter (fun t => decide (t ≠ "" ∧ 2 < t.length ∧ t.length < 50))).map
    (fun t => pyStrip (downcase t))).take 8

/-- `AzureVisionService._clean_description`: empty stays empty, else strip,
replace each newline by a space, truncate to 200 characters. -/
def cleanDescription (d : String) : String :=
  if d = "" then ""
  else String.mk ((((pyStrip d).data).map (fun c => if c = '\n' then ' ' else c)).take 200)

/-- Membership in `"0123456789ABCDEFabcdef"`. -/
def isHexChar (c : Char) : Bool :=
  decide (c ∈ "0123456789ABCDEFabcdef".data)

/-- The uppercase hexadecimal digits. -/
def upperHexChars : List Char := "0123456789ABCDEF".data

/-- `x` has the shape `#RRGGBB`: 7 characters, a leading `#`, six
uppercase hex digits. -/
def isHashHex7 (x : String) : Bool :=
  match x.data with
  | c :: rest => c == '#' && rest.length == 6 && rest.all (fun ch => upperHexChars.contains ch)
  | [] => false

/-- `AzureVisionService._color_name_to_hex`: `color_map.get(name.lower())`.
The Python dict literal repeats the key `'lime'` with the same value, so a
first-match lookup over the listed pairs is equivalent. -/
def colorNameToHex (colorName : String) : Option String :=
  (colorMap.find? (fun p => p.1 = downcase colorName)).map (fun p => p.2)
where
  colorMap : List (String × String) :=
    [("white", "#FFFFFF"), ("black", "#000000"), ("red", "#FF0000"),
     ("green", "#00FF00"), ("blue", "#0000FF"), ("yellow", "#FFFF00"),
     ("cyan", "#00FFFF"), ("magenta", "#FF00FF"), ("orange", "#FFA500"),
     ("purple", "#800080"), ("pink", "#FFC0CB"), ("brown", "#A52A2A"),
     ("gray", "#808080"), ("grey", "#808080"), ("silver", "#C0C0C0"),
     ("gold", "#FFD700"), ("navy", "#000080"), ("maroon", "#800000"),
     ("olive", "#808000"), ("lime", "#00FF00"), ("aqua", "#00FFFF"),
     ("teal", "#008080"), ("fuchsia", "#FF00FF"), ("indigo", "#4B0082"),
     ("violet", "#EE82EE"), ("coral", "#FF7F50"), ("salmon", "#FA8072"),
     ("turquoise", "#40E0D0"), ("beige", "#F5F5DC"), ("ivory", "#FFFFF0"),
     ("khaki", "#F0E68C"), ("lavender", "#E6E6FA"), ("plum", "#DDA0DD"),
     ("tan", "#D2B48C"), ("wheat", "#F5DEB3")]

/-- The body of `_format_colors`' loop for a single entry: skip empty
input, strip, then dispatch on `#`-prefix / 6-hex / 3-hex / known name. -/
def formatOneColor (acc : List String) (color : String) : List String :=
  if color = "" then acc
  else
    let c := pyStrip color
    if startsWithHash c then acc ++ [upcase c]
    else if c.length = 6 ∧ c.data.all isHexChar then acc ++ ["#" ++ upcase c]
    else if c.length = 3 ∧ c.data.all isHexChar then
      match c.data with
      | [a, b, c3] => acc ++ ["#" ++ upcase (String.mk [a, a, b, b, c3, c3])]
      | _ => acc
    else
      match colorNameToHex c with
      | some hex => acc ++ [hex]
      | none => acc

/-- `AzureVisionService._format_colors`: fold the loop, cap to 5. -/
def formatColors (colors : List String) : List String :=
  (colors.foldl formatOneColor []).take 5

/-- Tag extraction of `_process_azure_response`: names of the tags with
confidence strictly above 0.5, first 10 in upstream order ([] when the
`tags` key is absent). -/
def extractTagNames (p : AzurePayload) : List String :=
  match p.tags with
  | some ts => ((ts.filter (fun t => mkRat 1 2 < t.confidence)).map
      (fun t => t.name)).take 10
  | none => []

/-- Description extraction: the first caption text if any, else `""`. -/
def extractDescription (p : AzurePayload) : String :=
  match p.captions with
  | some (c :: _) => c
  | _ => ""

/-- Dominant-color extraction: first 5 upstream entries ([] when the key
is absent). -/
def extractColors (p : AzurePayload) : List String :=
  match p.dominantColors with
  | some cs => cs.take 5
  | none => []

/-- Confidence-score extraction: every upstream tag object (not only the
filtered ones) contributes `name → confidence` to the dict. -/
def extractConfidence (p : AzurePayload) : List (String × ℚ) :=
  match p.tags with
  | some ts => ts.foldl (fun m t => dictInsert m t.name t.confidence) []
  | none => []

/-- `AzureVisionService._process_azure_response`. -/
def processAzureResponse (p : AzurePayload) : AIProcessingResult :=
  { tags := cleanTags (extractTagNames p)
    description := cleanDescription (extractDescription p)
    dominant_colors := formatColors (extractColors p)
    confidence_scores := extractConfidence p
    processing_time := 0 }

/-! ## Admission governor and pipeline orchestrator:
`SimpleAIProcessor.process_image` / `retry_failed_processing`.

The `processing_tasks` dict is modelled by its key list (the stored
`started_at`/`status` values are never read by the pipeline).  Database
writes, the adapter call, registry mutations and log lines are recorded in
an event trace; the adapter outcome and any unexpected exception inside
the `try` block are supplied as an explicit `RunOutcome` parameter. -/

/-- Processing-status enum (`ProcessingStatus`), persisted as strings. -/
inductive ProcessingStatus where
  | pending
  | processing
  | completed
  | failed
deriving DecidableEq, Repr

def ProcessingStatus.value : ProcessingStatus → String
  | .pending => "pending"
  | .processing => "processing"
  | .completed => "completed"
  | .failed => "failed"

/-- A value written into one field of the `images` row: a string, a string
list, or the current wall-clock time (`datetime.now().isoformat()`). -/
inductive FieldVal where
  | s (v : String)
  | ls (v : List String)
  | time
deriving DecidableEq, Repr

/-- One observable step of a `process_image` run. -/
inductive Event where
  | dbWrite (imageId : Nat) (fields : List (String × FieldVal))
  | adapterCall (imageId : Nat)
  | regInsert (imageId : Nat)
  | regRemove (imageId : Nat)
  | log (msg : String)
deriving DecidableEq, Repr

/-- Fields written by `_update_image_status`. -/
def statusFields (st : ProcessingStatus) : List (String × FieldVal) :=
  [("processing_status", .s st.value), ("updated_at", .time)]

/-- Fields written by `_update_image_with_results`: completed status plus
tags, description and dominant colors — and nothing else (in particular no
confidence scores). -/
def resultFields (r : AIProcessingResult) : List (String × FieldVal) :=
  [("processing_status", .s "completed"),
   ("ai_tags", .ls r.tags),
   ("ai_description", .s r.description),
   ("dominant_colors", .ls r.dominant_colors),
   ("updated_at", .time)]

/-- Fields written by `_update_image_with_error`: failed status only; the
error message itself is logged, not persisted. -/
def errorFields : List (String × FieldVal) :=
  [("processing_status", .s "failed"), ("updated_at", .time)]

/-- How the body of `process_image`'s `try` block plays out once the image
was admitted: the adapter succeeds, the adapter raises, or something else
inside the `try` raises before the adapter is reached (every
`_update_*` helper swallows its own exceptions, so in the source only
`get_supabase_client` can do this). -/
inductive RunOutcome where
  | ok (r : AIProcessingResult)
  | analyzeRaises (msg : String)
  | raisesBeforeAnalyze (msg : String)
deriving DecidableEq, Repr

/-- Synchronous return value of `process_image` (the `success` flag and
the `error` entry of the returned dict). -/
structure ProcResult where
  success : Bool
  error : Option String
deriving DecidableEq, Repr

def MAX_CONCURRENT : Nat := 5

/-- The admission gate of `process_image` (lines 40–52): reject a
duplicate image id, reject when the registry is full, otherwise insert. -/
def admitStep (tasks : List Nat) (imageId : Nat) : Bool × List Nat :=
  if imageId ∈ tasks then (false, tasks)
  else if MAX_CONCURRENT ≤ tasks.length then (false, tasks)
  else (true, imageId :: tasks)

/-- `SimpleAIProcessor.process_image`: returns the synchronous result, the
final registry, and the ordered event trace of the run. -/
def processImage (tasks : List Nat) (imageId : Nat) (outcome : RunOutcome) :
    ProcResult × List Nat × List Event :=
  if imageId ∈ tasks then
    (⟨false, some "Image is already being processed"⟩, tasks, [])
  else if MAX_CONCURRENT ≤ tasks.length then
    (⟨false, some "Too many concurrent processing tasks"⟩, tasks, [])
  else
    let inserted := imageId :: tasks
    match outcome with
    | .ok r =>
        (⟨true, none⟩, inserted.erase imageId,
         [.regInsert imageId, .dbWrite imageId (statusFields .processing),
          .adapterCall imageId, .dbWrite imageId (resultFields r),
          .regRemove imageId])
    | .analyzeRaises msg =>
        (⟨false, some msg⟩, inserted.erase imageId,
         [.regInsert imageId, .dbWrite imageId (statusFields .processing),
          .adapterCall imageId, .log msg, .regRemove imageId,
          .dbWrite imageId errorFields, .log msg])
    | .raisesBeforeAnalyze msg =>
        (⟨false, some msg⟩, inserted.erase imageId,
         [.regInsert imageId, .log msg, .regRemove imageId,
          .dbWrite imageId errorFields, .log msg])

/-- `SimpleAIProcessor.retry_failed_processing`: reset the persisted
status to `pending`, then run `process_image` on the same image. -/
def retryFailedProcessing (tasks : List Nat) (imageId : Nat) (outcome : RunOutcome) :
    ProcResult × List Nat × List Event :=
  let run := processImage tasks imageId outcome
  (run.1, run.2.1, .dbWrite imageId (statusFields .pending) :: run.2.2)

/-- A registry-affecting step as seen by the shared registry: an admission
attempt (`process_image` lines 40–52) or a terminal-path release (lines
67–68 and 90–91). -/
inductive GovEvent where
  | submit (imageId : Nat)
  | release (imageId : Nat)
deriving DecidableEq, Repr

def govStep (tasks : List Nat) : GovEvent → List Nat
  | .submit imageId => (admitStep tasks imageId).2
  | .release imageId => tasks.erase imageId

/-- Registry contents after a sequence of interleaved admissions and
releases, starting from the empty registry. -/
def runGov (events : List GovEvent) : List Nat :=
  events.foldl govStep []

/-! ## Similarity scorer: `find_similar_images` (`app/api/search.py`). -/

/-- The per-image fields the scorer reads from a persisted row. -/
structure ImageRow where
  id : Nat
  ai_tags : List String
  ai_description : String
deriving DecidableEq, Repr

/-- One entry of the endpoint's `similar_images` output (scoring fields;
the response also copies presentation fields — filename, thumbnail URL,
tags, description, created-at — verbatim from the row). -/
structure SimItem where
  id : Nat
  similarity_score : ℚ
  tag_similarity : ℚ
  description_similarity : ℚ
deriving DecidableEq, Repr

/-- `len(set(a) & set(b))`. -/
def interCard (a b : List String) : Nat :=
  (a.dedup.filter (fun x => x ∈ b)).length

/-- `len(set(a) | set(b))`. -/
def unionCard (a b : List String) : Nat :=
  ((a ++ b).dedup).length

/-- `len(inter) / len(union) if setA or setB else 0` — the Jaccard index
with the both-empty case defined as 0. -/
def jaccard (a b : List String) : ℚ :=
  if a.dedup = [] ∧ b.dedup = [] then 0
  else mkRat (interCard a b) (unionCard a b)

/-- Lowercased whitespace-tokenized word list of a description. -/
def descWords (s : String) : List String := pySplitWs (downcase s)

/-- Tag similarity of two rows (Jaccard of the tag sets). -/
def tagSimilarity (source img : ImageRow) : ℚ :=
  jaccard source.ai_tags img.ai_tags

/-- Description similarity of two rows (Jaccard of the lowercased word
sets). -/
def descSimilarity (source img : ImageRow) : ℚ :=
  jaccard (descWords source.ai_description) (descWords img.ai_description)

/-- `combined_similarity = (tag_similarity * 0.7) + (desc_similarity * 0.3)`. -/
def combinedSimilarity (source img : ImageRow) : ℚ :=
  ratAdd (ratMul (tagSimilarity source img) (mkRat 7 10))
    (ratMul (descSimilarity source img) (mkRat 3 10))

/-- The output entry built for one candidate that passed the threshold:
reported scores are rounded to 3 decimal places. -/
def scoreItem (source img : ImageRow) : SimItem :=
  { id := img.id
    similarity_score := round3 (combinedSimilarity source img)
    tag_similarity := round3 (tagSimilarity source img)
    description_similarity := round3 (descSimilarity source img) }

/-- The candidate-scoring loop: keep, in input order, an output entry for
every candidate whose (unrounded) combined similarity reaches the
threshold. -/
def scoredCandidates (source : ImageRow) (cands : List ImageRow) (threshold : ℚ) :
    List SimItem :=
  cands.filterMap (fun img =>
    if threshold ≤ combinedSimilarity source img then some (scoreItem source img)
    else none)

/-- The sort relation used by `similar_images.sort(key=..., reverse=True)`:
descending by the reported (rounded) `similarity_score`. -/
def simItemGE (a b : SimItem) : Prop := b.similarity_score ≤ a.similarity_score

instance : DecidableRel simItemGE := fun a b => by
  unfold simItemGE; infer_instance

/-- `find_similar_images` after the ownership / analysis checks: score and
filter the candidates, sort descending by reported score (Python's sort is
stable, and `reverse=True` keeps equal keys in input order — an insertion
sort that inserts each earlier element in front of later equal keys
computes exactly that), truncate to `limit`. -/
def findSimilar (source : ImageRow) (cands : List ImageRow) (threshold : ℚ)
    (limit : Nat) : List SimItem :=
  (List.insertionSort simItemGE (scoredCandidates source cands threshold)).take limit

/-- Source row of the sort-order counterexample: tags `{p,q,r}`, three
description words. -/
def c7Source : ImageRow := ⟨0, ["p", "q", "r"], "a b c"⟩

/-- Candidate with tag Jaccard 1/3 and description Jaccard 1/3, combined
score exactly 1/3 ≈ 0.33333 (reported 0.333). -/
def c7CandA : ImageRow := ⟨1, ["p", "q", "s", "u", "v"], "a b x y z"⟩

/-- Candidate with tag Jaccard 2/5 and description Jaccard 3/17, combined
score 283/850 ≈ 0.33294 (reported 0.333 — same rounded score as
`c7CandA`, smaller unrounded score). -/
def c7CandB : ImageRow := ⟨2, ["p", "q", "w", "x"], "a b c d e f g h i j k l m n o t u"⟩

/-! ## Vision adapter entry point: `AzureVisionService.analyze_image`.
The network call and response decoding are collaborators; their behaviour
for one call is the `NetOutcome` parameter. -/

/-- Outcome of the HTTP interaction: a decoded JSON payload, an
`httpx.HTTPError` (timeout or non-2xx after `raise_for_status`), or any
other exception while obtaining/decoding the response. -/
inductive NetOutcome where
  | ok (payload : AzurePayload)
  | httpError (msg : String)
  | malformed (msg : String)
deriving DecidableEq, Repr

/-- `AzureVisionService.analyze_image`: the quota gate runs before the
`try` block, so a quota failure propagates unchanged and the network call
is never made; the `except` clauses wrap upstream failures.  Returns the
call result, the tracker state after the call, and the seconds slept. -/
def analyzeImage (s : QuotaState) (now : Int) (net : NetOutcome) :
    Except String AIProcessingResult × QuotaState × Int :=
  let rl := checkRateLimit s now
  match rl.error with
  | some .month =>
      (.error "Monthly free tier limit reached (4000 requests). Please wait until next month or upgrade to a paid plan.",
       rl.state, rl.wait)
  | some .day =>
      (.error "Daily limit reached (150 requests). Please try again tomorrow.",
       rl.state, rl.wait)
  | none =>
      match net with
      | .ok p => (.ok (processAzureResponse p), rl.state, rl.wait)
      | .httpError m => (.error ("Azure Vision API error: " ++ m), rl.state, rl.wait)
      | .malformed m => (.error ("Image analysis failed: " ++ m), rl.state, rl.wait)

/-- Every entry the color normalizer emits is either the uppercased,
stripped form of a `#`-prefixed source entry, or a well-formed `#RRGGBB`
string. -/
def colorOk (srcs : List String) (x : String) : Prop :=
  (∃ src ∈ srcs, startsWithHash (pyStrip src) = true ∧ x = upcase (pyStrip src))
  ∨ isHashHex7 x = true


/-- An upstream payload on which the claimed C5 invariants fail: a
duplicated tag name, a tag whose stripped form is 1 character, a
`#`-prefixed color that is not `#RRGGBB`, and an out-of-range confidence. -/
def c5Payload : AzurePayload :=
  { tags := some [⟨"cat", mkRat 9 10⟩, ⟨"cat", mkRat 8 10⟩, ⟨" a ", 2⟩]
    captions := some ["hi"]
    dominantColors := some ["#zz"] }


/-! ## Helper lemmas -/

theorem govStep_inv (tasks : List Nat) (e : GovEvent) (h1 : tasks.Nodup)
    (h2 : tasks.length ≤ MAX_CONCURRENT) :
    (govStep tasks e).Nodup ∧ (govStep tasks e).length ≤ MAX_CONCURRENT := by
  cases e with
  | submit j =>
    unfold govStep admitStep
    by_cases hj : j ∈ tasks
    · simpa [hj] using ⟨h1, h2⟩
    · by_cases hlen : MAX_CONCURRENT ≤ tasks.length
      · simpa [hj, hlen] using ⟨h1, h2⟩
      · simp only [hj, hlen, if_false, if_neg]
        refine ⟨?_, ?_⟩
        · simpa using ⟨hj, h1⟩
        · simpa using Nat.lt_of_not_le hlen
  | release j =>
    exact ⟨h1.erase _, le_trans (List.length_erase_le _ _) h2⟩

theorem runGov_inv (events : List GovEvent) :
    (runGov events).Nodup ∧ (runGov events).length ≤ MAX_CONCURRENT := by
  have key : ∀ (es : List GovEvent) (tasks : List Nat), tasks.Nodup →
      tasks.length ≤ MAX_CONCURRENT →
      (es.foldl govStep tasks).Nodup ∧
        (es.foldl govStep tasks).length ≤ MAX_CONCURRENT := by
    intro es
    induction es with
    | nil => intro tasks h1 h2; exact ⟨h1, h2⟩
    | cons e es ih =>
      intro tasks h1 h2
      have step := govStep_inv tasks e h1 h2
      exact ih _ step.1 step.2
  exact key events [] List.nodup_nil (by simp)

/-! ## Claim theorems -/

/-- C1: the per-minute window is NOT enforced as claimed.  With admitted
calls at 0 s and twenty at 100 s, the 22nd call at 101 s finds the full
minute ceiling of 20 timestamps in its trailing 60 s — the claim requires
it to suspend until one minute past the oldest of them (160 s) — yet the
code computes the wait from the oldest timestamp of the whole hour-pruned
list (0 s), sleeps 0 s, and admits, leaving 21 recorded admissions inside
the trailing 60-second window ending at 101 s.  All 22 calls are admitted
(`monthly_usage = 22`). -/
theorem c1_minute_ceiling_violated :
    (checkRateLimit (runQuota ⟨[], 0, 0⟩ ([0] ++ List.replicate 20 100)) 101).error = none
    ∧ (checkRateLimit (runQuota ⟨[], 0, 0⟩ ([0] ++ List.replicate 20 100)) 101).wait = 0
    ∧ ((pruneTimes (runQuota ⟨[], 0, 0⟩
          ([0] ++ List.replicate 20 100)).request_times 101).filter
        (fun t => (101 : Int) - t < 60)).length = MAX_REQUESTS_PER_MINUTE
    ∧ MAX_REQUESTS_PER_MINUTE < minuteWindowCount
        (runQuota ⟨[], 0, 0⟩ ([0] ++ List.replicate 20 100 ++ [101])).request_times 101
    ∧ (runQuota ⟨[], 0, 0⟩ ([0] ++ List.replicate 20 100 ++ [101])).monthly_usage = 22 := by
  decide

/-- C2: a submission for an image id already in the registry, or arriving
while the registry holds `max_concurrent` entries, returns
`success = false` with the registry unchanged and an empty event trace (no
database write, no adapter call); and after any interleaving of admissions
and releases starting from the empty registry, the registry is
duplicate-free and never exceeds `max_concurrent`. -/
theorem c2_admission_governor (tasks : List Nat) (imageId : Nat)
    (outcome : RunOutcome) (events : List GovEvent)
    (h : imageId ∈ tasks ∨ MAX_CONCURRENT ≤ tasks.length) :
    (processImage tasks imageId outcome).1.success = false
    ∧ (processImage tasks imageId outcome).2.1 = tasks
    ∧ (processImage tasks imageId outcome).2.2 = []
    ∧ (runGov events).Nodup
    ∧ (runGov events).length ≤ MAX_CONCURRENT := by
  have hinv := runGov_inv events
  by_cases hmem : imageId ∈ tasks
  · refine ⟨?_, ?_, ?_, hinv.1, hinv.2⟩ <;> simp [processImage, hmem]
  · rcases h with h | h
    · exact absurd h hmem
    · refine ⟨?_, ?_, ?_, hinv.1, hinv.2⟩ <;> simp [processImage, hmem, h]

theorem c2_witness :
    (7 ∈ [7] ∨ MAX_CONCURRENT ≤ [7].length)
    ∧ (processImage [7] 7 (.ok ⟨[], "", [], [], 0⟩)).1.success = false
    ∧ (processImage [7] 7 (.ok ⟨[], "", [], [], 0⟩)).2.1 = [7]
    ∧ (processImage [7] 7 (.ok ⟨[], "", [], [], 0⟩)).2.2 = []
    ∧ (runGov [.submit 1, .submit 1, .release 1]).Nodup
    ∧ (runGov [.submit 1, .submit 1, .release 1]).length ≤ MAX_CONCURRENT := by
  have h : 7 ∈ [7] ∨ MAX_CONCURRENT ≤ [7].length := Or.inl (by decide)
  have main := c2_admission_governor [7] 7 (.ok ⟨[], "", [], [], 0⟩)
    [.submit 1, .submit 1, .release 1] h
  exact ⟨h, main.1, main.2.1, main.2.2.1, main.2.2.2.1, main.2.2.2.2⟩

/-- C3: an admitted run (image id not yet registered, registry below the
cap) removes its registry entry exactly once before terminating, whether
the adapter succeeds, the adapter raises, or an unexpected exception is
raised inside the `try` block before the adapter call; the final registry
equals the initial one. -/
theorem c3_release_exactly_once (tasks : List Nat) (imageId : Nat)
    (outcome : RunOutcome) (h1 : imageId ∉ tasks)
    (h2 : tasks.length < MAX_CONCURRENT) :
    ((processImage tasks imageId outcome).2.2.filter
        (fun e => e = .regRemove imageId)).length = 1
    ∧ ((processImage tasks imageId outcome).2.2.filter
        (fun e => e = .regInsert imageId)).length = 1
    ∧ (processImage tasks imageId outcome).2.1 = tasks := by
  have hfull : ¬ MAX_CONCURRENT ≤ tasks.length := Nat.not_le.mpr h2
  cases outcome <;> simp [processImage, h1, hfull, List.filter]

theorem c3_witness :
    (2 ∉ [0, 1] ∧ [0, 1].length < MAX_CONCURRENT)
    ∧ ((processImage [0, 1] 2 (.analyzeRaises "boom")).2.2.filter
        (fun e => e = .regRemove 2)).length = 1
    ∧ ((processImage [0, 1] 2 (.analyzeRaises "boom")).2.2.filter
        (fun e => e = .regInsert 2)).length = 1
    ∧ (processImage [0, 1] 2 (.analyzeRaises "boom")).2.1 = [0, 1] := by
  have h1 : 2 ∉ [0, 1] := by decide
  have h2 : [0, 1].length < MAX_CONCURRENT := by decide
  exact ⟨⟨h1, h2⟩, c3_release_exactly_once [0, 1] 2 (.analyzeRaises "boom") h1 h2⟩

/-- C4: the monthly ceiling is checked before the daily one; hitting
either fails immediately with the corresponding scope, zero wait, both
counters unchanged and no timestamp recorded; an admitted attempt records
one timestamp and increments both counters by one. -/
theorem c4_hard_ceilings (s : QuotaState) (now : Int) :
    (MAX_REQUESTS_PER_MONTH ≤ s.monthly_usage →
        (checkRateLimit s now).error = some .month
        ∧ (checkRateLimit s now).wait = 0
        ∧ (checkRateLimit s now).state.monthly_usage = s.monthly_usage
        ∧ (checkRateLimit s now).state.daily_usage = s.daily_usage
        ∧ (checkRateLimit s now).state.request_times = pruneTimes s.request_times now)
    ∧ (s.monthly_usage < MAX_REQUESTS_PER_MONTH →
       MAX_REQUESTS_PER_DAY ≤ s.daily_usage →
        (checkRateLimit s now).error = some .day
        ∧ (checkRateLimit s now).wait = 0
        ∧ (checkRateLimit s now).state.monthly_usage = s.monthly_usage
        ∧ (checkRateLimit s now).state.daily_usage = s.daily_usage
        ∧ (checkRateLimit s now).state.request_times = pruneTimes s.request_times now)
    ∧ (s.monthly_usage < MAX_REQUESTS_PER_MONTH →
       s.daily_usage < MAX_REQUESTS_PER_DAY →
        (checkRateLimit s now).error = none
        ∧ (checkRateLimit s now).state.request_times
            = pruneTimes s.request_times now ++ [now]
        ∧ (checkRateLimit s now).state.monthly_usage = s.monthly_usage + 1
        ∧ (checkRateLimit s now).state.daily_usage = s.daily_usage + 1) := by
  refine ⟨fun h1 => ?_, fun h1 h2 => ?_, fun h1 h2 => ?_⟩
  · simp [checkRateLimit, h1]
  · simp [checkRateLimit, Nat.not_le.mpr h1, h2]
  · simp [checkRateLimit, Nat.not_le.mpr h1, Nat.not_le.mpr h2]

theorem c4_witness :
    (MAX_REQUESTS_PER_MONTH ≤ (4000 : Nat)
      ∧ (checkRateLimit ⟨[], 4000, 0⟩ 0).error = some .month
      ∧ (checkRateLimit ⟨[], 4000, 0⟩ 0).wait = 0
      ∧ (checkRateLimit ⟨[], 4000, 0⟩ 0).state.monthly_usage = 4000
      ∧ (checkRateLimit ⟨[], 4000, 0⟩ 0).state.daily_usage = 0
      ∧ (checkRateLimit ⟨[], 4000, 0⟩ 0).state.request_times = pruneTimes [] 0)
    ∧ ((checkRateLimit ⟨[], 0, 150⟩ 0).error = some .day
      ∧ (checkRateLimit ⟨[], 0, 150⟩ 0).wait = 0
      ∧ (checkRateLimit ⟨[], 0, 150⟩ 0).state.monthly_usage = 0
      ∧ (checkRateLimit ⟨[], 0, 150⟩ 0).state.daily_usage = 150
      ∧ (checkRateLimit ⟨[], 0, 150⟩ 0).state.request_times = pruneTimes [] 0)
    ∧ ((checkRateLimit ⟨[], 0, 0⟩ 5).error = none
      ∧ (checkRateLimit ⟨[], 0, 0⟩ 5).state.request_times = pruneTimes [] 5 ++ [5]
      ∧ (checkRateLimit ⟨[], 0, 0⟩ 5).state.monthly_usage = 0 + 1
      ∧ (checkRateLimit ⟨[], 0, 0⟩ 5).state.daily_usage = 0 + 1) := by
  refine ⟨⟨by decide, ?_⟩, ?_, ?_⟩
  · exact (c4_hard_ceilings ⟨[], 4000, 0⟩ 0).1 (by decide)
  · exact (c4_hard_ceilings ⟨[], 0, 150⟩ 0).2.1 (by decide) (by decide)
  · exact (c4_hard_ceilings ⟨[], 0, 0⟩ 5).2.2 (by decide) (by decide)

/-- C6: on adapter success the admitted run's persisted writes are exactly
the `processing` status write and the result write (completed status,
tags, description, dominant colors — no confidence scores, whose key never
appears in any write); on adapter failure they are exactly the
`processing` status write and the constant `failed` write, which does not
depend on the error message — the message reaches only the log. -/
theorem c6_persisted_outcomes (tasks : List Nat) (imageId : Nat)
    (r : AIProcessingResult) (msg : String) (h1 : imageId ∉ tasks)
    (h2 : tasks.length < MAX_CONCURRENT) :
    (Event.dbWrite imageId (resultFields r) ∈ (processImage tasks imageId (.ok r)).2.2
     ∧ ("processing_status", FieldVal.s "completed") ∈ resultFields r
     ∧ ("ai_tags", FieldVal.ls r.tags) ∈ resultFields r
     ∧ ("ai_description", FieldVal.s r.description) ∈ resultFields r
     ∧ ("dominant_colors", FieldVal.ls r.dominant_colors) ∈ resultFields r
     ∧ (∀ j fields, Event.dbWrite j fields ∈ (processImage tasks imageId (.ok r)).2.2 →
          (fields = statusFields .processing ∨ fields = resultFields r)
          ∧ ∀ kv ∈ fields, kv.1 ≠ "confidence_scores"))
    ∧ (Event.dbWrite imageId errorFields
          ∈ (processImage tasks imageId (.analyzeRaises msg)).2.2
       ∧ ("processing_status", FieldVal.s "failed") ∈ errorFields
       ∧ Event.log msg ∈ (processImage tasks imageId (.analyzeRaises msg)).2.2
       ∧ ∀ j fields,
           Event.dbWrite j fields ∈ (processImage tasks imageId (.analyzeRaises msg)).2.2 →
             fields = statusFields .processing ∨ fields = errorFields) := by
  have hfull : ¬ MAX_CONCURRENT ≤ tasks.length := Nat.not_le.mpr h2
  constructor
  · refine ⟨?_, ?_, ?_, ?_, ?_, ?_⟩
    · simp [processImage, h1, hfull]
    · simp [resultFields]
    · simp [resultFields]
    · simp [resultFields]
    · simp [resultFields]
    · intro j fields hmem
      have htrace : (processImage tasks imageId (.ok r)).2.2
          = [.regInsert imageId, .dbWrite imageId (statusFields .processing),
             .adapterCall imageId, .dbWrite imageId (resultFields r),
             .regRemove imageId] := by
        simp [processImage, h1, hfull]
      rw [htrace] at hmem
      simp only [List.mem_cons, List.not_mem_nil, or_false] at hmem
      rcases hmem with h | h | h | h | h
      · exact absurd h (by simp)
      · obtain ⟨rfl, rfl⟩ := Event.dbWrite.inj h
        exact ⟨Or.inl rfl, by decide⟩
      · exact absurd h (by simp)
      · obtain ⟨rfl, rfl⟩ := Event.dbWrite.inj h
        refine ⟨Or.inr rfl, ?_⟩
        intro kv hkv
        simp only [resultFields, List.mem_cons, List.not_mem_nil, or_false] at hkv
        rcases hkv with rfl | rfl | rfl | rfl | rfl <;> simp
      · exact absurd h (by simp)
  · refine ⟨?_, ?_, ?_, ?_⟩
    · simp [processImage, h1, hfull]
    · simp [errorFields]
    · simp [processImage, h1, hfull]
    · intro j fields hmem
      have htrace : (processImage tasks imageId (.analyzeRaises msg)).2.2
          = [.regInsert imageId, .dbWrite imageId (statusFields .processing),
             .adapterCall imageId, .log msg, .regRemove imageId,
             .dbWrite imageId errorFields, .log msg] := by
        simp [processImage, h1, hfull]
      rw [htrace] at hmem
      simp only [List.mem_cons, List.not_mem_nil, or_false] at hmem
      rcases hmem with h | h | h | h | h | h | h
      · exact absurd h (by simp)
      · obtain ⟨rfl, rfl⟩ := Event.dbWrite.inj h
        exact Or.inl rfl
      · exact absurd h (by simp)
      · exact absurd h (by simp)
      · exact absurd h (by simp)
      · obtain ⟨rfl, rfl⟩ := Event.dbWrite.inj h
        exact Or.inr rfl
      · exact absurd h (by simp)

theorem c6_witness :
    (1 ∉ ([] : List Nat)) ∧ (([] : List Nat).length < MAX_CONCURRENT)
    ∧ Event.dbWrite 1 (resultFields ⟨["t"], "d", ["#FFFFFF"], [("t", 1)], 0⟩)
        ∈ (processImage [] 1 (.ok ⟨["t"], "d", ["#FFFFFF"], [("t", 1)], 0⟩)).2.2
    ∧ Event.dbWrite 1 errorFields ∈ (processImage [] 1 (.analyzeRaises "boom")).2.2
    ∧ Event.log "boom" ∈ (processImage [] 1 (.analyzeRaises "boom")).2.2 := by
  have h1 : 1 ∉ ([] : List Nat) := by decide
  have h2 : ([] : List Nat).length < MAX_CONCURRENT := by decide
  have main := c6_persisted_outcomes [] 1 ⟨["t"], "d", ["#FFFFFF"], [("t", 1)], 0⟩
    "boom" h1 h2
  exact ⟨h1, h2, main.1.1, main.2.1, main.2.2.2.1⟩

/-- C9: whenever a retry reaches the vision adapter, the persisted status
was first reset to `pending` and then set to `processing`, in that order,
before the adapter call (the three events form a subsequence of the retry
trace); and a retry for an image that still has a registry entry returns
the same rejection as a duplicate submission — identical result value, no
adapter call, registry untouched. -/
theorem c9_retry_transitions (tasks : List Nat) (imageId : Nat)
    (outcome : RunOutcome) :
    (Event.adapterCall imageId ∈ (retryFailedProcessing tasks imageId outcome).2.2 →
      List.Sublist
        [Event.dbWrite imageId (statusFields .pending),
         Event.dbWrite imageId (statusFields .processing),
         Event.adapterCall imageId]
        (retryFailedProcessing tasks imageId outcome).2.2)
    ∧ (imageId ∈ tasks →
        (retryFailedProcessing tasks imageId outcome).1
            = ⟨false, some "Image is already being processed"⟩
        ∧ (retryFailedProcessing tasks imageId outcome).1
            = (processImage tasks imageId outcome).1
        ∧ Event.adapterCall imageId ∉ (retryFailedProcessing tasks imageId outcome).2.2
        ∧ (retryFailedProcessing tasks imageId outcome).2.1 = tasks) := by
  by_cases hmem : imageId ∈ tasks
  · have ht : (retryFailedProcessing tasks imageId outcome).2.2
        = [Event.dbWrite imageId (statusFields .pending)] := by
      simp [retryFailedProcessing, processImage, hmem]
    constructor
    · intro h
      rw [ht] at h
      simp at h
    · intro _
      refine ⟨?_, ?_, ?_, ?_⟩
      · simp [retryFailedProcessing, processImage, hmem]
      · simp [retryFailedProcessing, processImage, hmem]
      · rw [ht]; simp
      · simp [retryFailedProcessing, processImage, hmem]
  · refine ⟨?_, fun h => absurd h hmem⟩
    by_cases hfull : MAX_CONCURRENT ≤ tasks.length
    · intro h
      have ht : (retryFailedProcessing tasks imageId outcome).2.2
          = [Event.dbWrite imageId (statusFields .pending)] := by
        simp [retryFailedProcessing, processImage, hmem, hfull]
      rw [ht] at h
      simp at h
    · cases outcome with
      | ok r =>
        intro _
        have ht : (retryFailedProcessing tasks imageId (.ok r)).2.2
            = [Event.dbWrite imageId (statusFields .pending),
               Event.regInsert imageId,
               Event.dbWrite imageId (statusFields .processing),
               Event.adapterCall imageId,
               Event.dbWrite imageId (resultFields r),
               Event.regRemove imageId] := by
          simp [retryFailedProcessing, processImage, hmem, hfull]
        rw [ht]
        exact .cons₂ _ (.cons _ (.cons₂ _ (.cons₂ _ (List.nil_sublist _))))
      | analyzeRaises msg =>
        intro _
        have ht : (retryFailedProcessing tasks imageId (.analyzeRaises msg)).2.2
            = [Event.dbWrite imageId (statusFields .pending),
               Event.regInsert imageId,
               Event.dbWrite imageId (statusFields .processing),
               Event.adapterCall imageId,
               Event.log msg,
               Event.regRemove imageId,
               Event.dbWrite imageId errorFields,
               Event.log msg] := by
          simp [retryFailedProcessing, processImage, hmem, hfull]
        rw [ht]
        exact .cons₂ _ (.cons _ (.cons₂ _ (.cons₂ _ (List.nil_sublist _))))
      | raisesBeforeAnalyze msg =>
        intro h
        have ht : (retryFailedProcessing tasks imageId (.raisesBeforeAnalyze msg)).2.2
            = [Event.dbWrite imageId (statusFields .pending),
               Event.regInsert imageId,
               Event.log msg,
               Event.regRemove imageId,
               Event.dbWrite imageId errorFields,
               Event.log msg] := by
          simp [retryFailedProcessing, processImage, hmem, hfull]
        rw [ht] at h
        simp at h

theorem c9_witness :
    List.Sublist
      [Event.dbWrite 1 (statusFields .pending),
       Event.dbWrite 1 (statusFields .processing),
       Event.adapterCall 1]
      (retryFailedProcessing [] 1 (.ok ⟨[], "", [], [], 0⟩)).2.2
    ∧ ((retryFailedProcessing [1] 1 (.ok ⟨[], "", [], [], 0⟩)).1
          = ⟨false, some "Image is already being processed"⟩
       ∧ (retryFailedProcessing [1] 1 (.ok ⟨[], "", [], [], 0⟩)).1
          = (processImage [1] 1 (.ok ⟨[], "", [], [], 0⟩)).1
       ∧ Event.adapterCall 1 ∉ (retryFailedProcessing [1] 1 (.ok ⟨[], "", [], [], 0⟩)).2.2
       ∧ (retryFailedProcessing [1] 1 (.ok ⟨[], "", [], [], 0⟩)).2.1 = [1]) := by
  constructor
  · exact (c9_retry_transitions [] 1 (.ok ⟨[], "", [], [], 0⟩)).1 (by decide)
  · exact (c9_retry_transitions [1] 1 (.ok ⟨[], "", [], [], 0⟩)).2 (by decide)

/-- C10: once the quota gate admits a call, the minute-window timestamp is
recorded and both counters are incremented, and the resulting tracker
state is the same whatever the network outcome — an HTTP failure or a
malformed payload still returns an error while the consumed quota unit is
never rolled back. -/
theorem c10_no_rollback (s : QuotaState) (now : Int) (net : NetOutcome)
    (h1 : s.monthly_usage < MAX_REQUESTS_PER_MONTH)
    (h2 : s.daily_usage < MAX_REQUESTS_PER_DAY) :
    (analyzeImage s now net).2.1 = (checkRateLimit s now).state
    ∧ (analyzeImage s now net).2.1.monthly_usage = s.monthly_usage + 1
    ∧ (analyzeImage s now net).2.1.daily_usage = s.daily_usage + 1
    ∧ now ∈ (analyzeImage s now net).2.1.request_times
    ∧ (∀ m, ∃ e, (analyzeImage s now (.httpError m)).1 = .error e)
    ∧ (∀ m, ∃ e, (analyzeImage s now (.malformed m)).1 = .error e) := by
  have herr : (checkRateLimit s now).error = none := by
    simp [checkRateLimit, Nat.not_le.mpr h1, Nat.not_le.mpr h2]
  have hstate : (checkRateLimit s now).state.request_times
      = pruneTimes s.request_times now ++ [now]
      ∧ (checkRateLimit s now).state.monthly_usage = s.monthly_usage + 1
      ∧ (checkRateLimit s now).state.daily_usage = s.daily_usage + 1 := by
    refine ⟨?_, ?_, ?_⟩ <;> simp [checkRateLimit, Nat.not_le.mpr h1, Nat.not_le.mpr h2]
  have hfix : ∀ n : NetOutcome, (analyzeImage s now n).2.1 = (checkRateLimit s now).state := by
    intro n
    cases n <;> simp [analyzeImage, herr]
  refine ⟨hfix net, ?_, ?_, ?_, ?_, ?_⟩
  · rw [hfix net, hstate.2.1]
  · rw [hfix net, hstate.2.2]
  · rw [hfix net, hstate.1]
    exact List.mem_append.mpr (Or.inr (by simp))
  · intro m
    exact ⟨"Azure Vision API error: " ++ m, by simp [analyzeImage, herr]⟩
  · intro m
    exact ⟨"Image analysis failed: " ++ m, by simp [analyzeImage, herr]⟩

theorem c10_witness :
    ((0 : Nat) < MAX_REQUESTS_PER_MONTH) ∧ ((0 : Nat) < MAX_REQUESTS_PER_DAY)
    ∧ (analyzeImage ⟨[], 0, 0⟩ 5 (.httpError "timeout")).2.1
        = (checkRateLimit ⟨[], 0, 0⟩ 5).state
    ∧ (analyzeImage ⟨[], 0, 0⟩ 5 (.httpError "timeout")).2.1.monthly_usage = 0 + 1
    ∧ (analyzeImage ⟨[], 0, 0⟩ 5 (.httpError "timeout")).2.1.daily_usage = 0 + 1
    ∧ (5 : Int) ∈ (analyzeImage ⟨[], 0, 0⟩ 5 (.httpError "timeout")).2.1.request_times := by
  have h1 : (0 : Nat) < MAX_REQUESTS_PER_MONTH := by decide
  have h2 : (0 : Nat) < MAX_REQUESTS_PER_DAY := by decide
  have main := c10_no_rollback ⟨[], 0, 0⟩ 5 (.httpError "timeout") h1 h2
  exact ⟨h1, h2, main.1, main.2.1, main.2.2.1, main.2.2.2.1⟩

/-! ## Normalization invariants (helper lemmas for the amended C5) -/

theorem mem_cleanTags {t : String} {ts : List String} (h : t ∈ cleanTags ts) :
    ∃ src ∈ ts, t = pyStrip (downcase src) ∧ 2 < src.length ∧ src.length < 50 := by
  unfold cleanTags at h
  have h2 := (List.take_sublist 8 _).subset h
  rcases List.mem_map.mp h2 with ⟨src, hsrc, rfl⟩
  rcases List.mem_filter.mp hsrc with ⟨hmem, hp⟩
  have hp2 := of_decide_eq_true hp
  exact ⟨src, hmem, rfl, hp2.2.1, hp2.2.2⟩

theorem cleanDescription_length (d : String) : (cleanDescription d).length ≤ 200 := by
  unfold cleanDescription
  split
  · simp
  · exact List.length_take_le 200 _

theorem cleanDescription_no_newline (d : String) :
    ∀ c ∈ (cleanDescription d).data, c ≠ '\n' := by
  unfold cleanDescription
  split
  · intro c hc
    simp at hc
  · intro c hc
    have hc2 := (List.take_sublist 200 _).subset hc
    rcases List.mem_map.mp hc2 with ⟨c0, _, rfl⟩
    by_cases h0 : c0 = '\n'
    · simp [h0]
    · simp [h0]

theorem toUpper_mem_upperHex {ch : Char} (h : isHexChar ch = true) :
    upperHexChars.contains ch.toUpper = true := by
  have hmem : ch ∈ "0123456789ABCDEFabcdef".data := of_decide_eq_true h
  fin_cases hmem <;> decide

theorem isHashHex7_intro (l : List Char) (h6 : l.length = 6)
    (hhex : ∀ ch ∈ l, isHexChar ch = true) :
    isHashHex7 (String.mk ('#' :: l.map Char.toUpper)) = true := by
  show ('#' == '#' && (l.map Char.toUpper).length == 6
      && (l.map Char.toUpper).all (fun ch => upperHexChars.contains ch)) = true
  rw [Bool.and_eq_true, Bool.and_eq_true]
  refine ⟨⟨rfl, ?_⟩, ?_⟩
  · simp [h6]
  · rw [List.all_eq_true]
    intro ch hch
    rcases List.mem_map.mp hch with ⟨c0, hc0, rfl⟩
    exact toUpper_mem_upperHex (hhex c0 hc0)

theorem colorNameToHex_hashHex7 {c hex : String} (h : colorNameToHex c = some hex) :
    isHashHex7 hex = true := by
  unfold colorNameToHex at h
  rcases Option.map_eq_some'.mp h with ⟨p, hfind, rfl⟩
  have hmem := List.mem_of_find?_eq_some hfind
  have hall : ∀ q ∈ colorNameToHex.colorMap, isHashHex7 q.2 = true := by decide
  exact hall p hmem

theorem formatOneColor_inv {srcs acc : List String} {c : String}
    (hacc : ∀ x ∈ acc, colorOk srcs x) (hc : c ∈ srcs) :
    ∀ x ∈ formatOneColor acc c, colorOk srcs x := by
  intro x hx
  simp only [formatOneColor] at hx
  split at hx
  · exact hacc x hx
  · split at hx
    · rename_i hhash
      rcases List.mem_append.mp hx with hx | hx
      · exact hacc x hx
      · rcases List.mem_singleton.mp hx with rfl
        exact Or.inl ⟨c, hc, hhash, rfl⟩
    · split at hx
      · rename_i h6
        rcases List.mem_append.mp hx with hx | hx
        · exact hacc x hx
        · rcases List.mem_singleton.mp hx with rfl
          refine Or.inr ?_
          have heqs : ("#" ++ upcase (pyStrip c))
              = String.mk ('#' :: (pyStrip c).data.map Char.toUpper) := rfl
          rw [heqs]
          refine isHashHex7_intro _ h6.1 ?_
          intro ch hch
          exact List.all_eq_true.mp h6.2 ch hch
      · split at hx
        · rename_i h3
          split at hx
          · rename_i a b c3 heq
            rcases List.mem_append.mp hx with hx | hx
            · exact hacc x hx
            · rcases List.mem_singleton.mp hx with rfl
              refine Or.inr ?_
              have heqs : ("#" ++ upcase (String.mk [a, a, b, b, c3, c3]))
                  = String.mk ('#' :: [a, a, b, b, c3, c3].map Char.toUpper) := rfl
              rw [heqs]
              refine isHashHex7_intro _ rfl ?_
              intro ch hch
              have hall := List.all_eq_true.mp h3.2
              rw [heq] at hall
              simp only [List.mem_cons, List.not_mem_nil, or_false] at hch
              rcases hch with rfl | rfl | rfl | rfl | rfl | rfl <;>
                exact hall _ (by simp)
          · exact hacc x hx
        · split at hx
          · rename_i hex heq
            rcases List.mem_append.mp hx with hx | hx
            · exact hacc x hx
            · rcases List.mem_singleton.mp hx with rfl
              exact Or.inr (colorNameToHex_hashHex7 heq)
          · exact hacc x hx

theorem foldl_formatOneColor_inv (srcs : List String) :
    ∀ (l acc : List String), (∀ x ∈ acc, colorOk srcs x) → (∀ c ∈ l, c ∈ srcs) →
      ∀ x ∈ l.foldl formatOneColor acc, colorOk srcs x := by
  intro l
  induction l with
  | nil =>
    intro acc hacc _
    simpa using hacc
  | cons c cs ih =>
    intro acc hacc hl
    exact ih _ (formatOneColor_inv hacc (hl c (List.mem_cons_self c cs)))
      (fun d hd => hl d (List.mem_cons_of_mem c hd))

theorem formatColors_inv (cs : List String) :
    ∀ x ∈ formatColors cs, colorOk cs x := by
  intro x hx
  unfold formatColors at hx
  exact foldl_formatOneColor_inv cs cs [] (by simp) (fun c h => h) x
    ((List.take_sublist 5 _).subset hx)

theorem dictInsert_inv {P : String × ℚ → Prop} {m : List (String × ℚ)} {k : String}
    {v : ℚ} (hm : ∀ kv ∈ m, P kv) (hkv : P (k, v)) :
    ∀ kv ∈ dictInsert m k v, P kv := by
  intro kv hmem
  unfold dictInsert at hmem
  split at hmem
  · rcases List.mem_map.mp hmem with ⟨p, hp, rfl⟩
    split
    · exact hkv
    · exact hm p hp
  · rcases List.mem_append.mp hmem with h | h
    · exact hm kv h
    · rcases List.mem_singleton.mp h with rfl
      exact hkv

theorem extractConfidence_sources (p : AzurePayload) :
    ∀ kv ∈ extractConfidence p, ∃ tg ∈ p.tags.getD [], kv = (tg.name, tg.confidence) := by
  unfold extractConfidence
  cases htags : p.tags with
  | none =>
    intro kv h
    simp at h
  | some ts =>
    have key : ∀ (l : List AzureTag) (acc : List (String × ℚ)),
        (∀ kv ∈ acc, ∃ tg ∈ ts, kv = (tg.name, tg.confidence)) →
        (∀ t ∈ l, t ∈ ts) →
        ∀ kv ∈ l.foldl (fun m t => dictInsert m t.name t.confidence) acc,
          ∃ tg ∈ ts, kv = (tg.name, tg.confidence) := by
      intro l
      induction l with
      | nil =>
        intro acc hacc _
        simpa using hacc
      | cons t l ih =>
        intro acc hacc hl
        exact ih _ (dictInsert_inv hacc ⟨t, hl t (List.mem_cons_self t l), rfl⟩)
          (fun d hd => hl d (List.mem_cons_of_mem t hd))
    intro kv hkv
    simpa using key ts [] (by simp) (fun t h => h) kv hkv

theorem mem_extractTagNames {p : AzurePayload} {s : String}
    (h : s ∈ extractTagNames p) :
    ∃ tg ∈ p.tags.getD [], s = tg.name ∧ mkRat 1 2 < tg.confidence := by
  unfold extractTagNames at h
  cases htags : p.tags with
  | none =>
    rw [htags] at h
    simp at h
  | some ts =>
    rw [htags] at h
    have h2 := (List.take_sublist 10 _).subset h
    rcases List.mem_map.mp h2 with ⟨tg, htg, rfl⟩
    rcases List.mem_filter.mp htg with ⟨hmem, hconf⟩
    exact ⟨tg, by simpa using hmem, rfl, of_decide_eq_true hconf⟩

theorem filter_map_comm {α β : Type} (q : β → Bool) (f : α → β) (l : List α) :
    (l.map f).filter q = (l.filter (fun x => q (f x))).map f := by
  induction l with
  | nil => rfl
  | cons a l ih => by_cases h : q (f a) <;> simp [h, ih]

/-- The tag pipeline expressed directly over the upstream tag objects: the
output tag list is the lowercased, stripped names of the first 8
length-qualifying tags among the first 10 confidence-qualifying upstream
tags, in upstream order (duplicates included). -/
theorem cleanTags_extract_eq (p : AzurePayload) :
    cleanTags (extractTagNames p)
      = (((((p.tags.getD []).filter (fun tg => mkRat 1 2 < tg.confidence)).take 10).filter
            (fun tg => decide (tg.name ≠ "" ∧ 2 < tg.name.length
              ∧ tg.name.length < 50))).take 8).map
          (fun tg => pyStrip (downcase tg.name)) := by
  cases htags : p.tags with
  | none => simp [extractTagNames, cleanTags, htags]
  | some ts =>
    simp only [extractTagNames, cleanTags, htags, Option.getD_some]
    rw [← List.map_take, ← List.map_take, filter_map_comm, ← List.map_take, List.map_map]
    rfl

/-- C5 is false as stated: on `c5Payload` the normalized result has a
duplicated tag (`_clean_tags` never deduplicates), a tag of length 1 (the
3–49 length filter runs before `.strip()`), a dominant color `"#ZZ"` that
is not a 7-character `#RRGGBB` string (a `#`-prefixed entry is passed
through unvalidated), and a confidence value 2 outside [0,1] (confidences
are copied verbatim from upstream). -/
theorem c5_counterexample :
    ¬ (processAzureResponse c5Payload).tags.Nodup
    ∧ (∃ t ∈ (processAzureResponse c5Payload).tags, t.length < 3)
    ∧ (∃ x ∈ (processAzureResponse c5Payload).dominant_colors, x.length ≠ 7)
    ∧ (∃ kv ∈ (processAzureResponse c5Payload).confidence_scores, 1 < kv.2) := by
  decide

/-- C5 (amended): for every upstream payload the normalized result has at
most 8 tags, each the lowercased stripped form of an upstream tag name of
original length 3–49 and confidence above 0.5 (kept in source order, not
deduplicated); a description of at most 200 characters containing no
newline; at most 5 colors, each either the uppercased stripped form of a
`#`-prefixed upstream entry or a 7-character `#RRGGBB` string; and a
confidence map copied verbatim from the upstream tag objects. -/
theorem c5_normalized_invariants (p : AzurePayload) :
    (processAzureResponse p).tags.length ≤ 8
    ∧ (∀ t ∈ (processAzureResponse p).tags, ∃ tg ∈ p.tags.getD [],
        t = pyStrip (downcase tg.name) ∧ 2 < tg.name.length ∧ tg.name.length < 50
        ∧ mkRat 1 2 < tg.confidence)
    ∧ (∃ kept : List AzureTag,
        kept = ((((p.tags.getD []).filter (fun tg => mkRat 1 2 < tg.confidence)).take 10).filter
            (fun tg => decide (tg.name ≠ "" ∧ 2 < tg.name.length
              ∧ tg.name.length < 50))).take 8
        ∧ List.Sublist kept (p.tags.getD [])
        ∧ (processAzureResponse p).tags = kept.map (fun tg => pyStrip (downcase tg.name)))
    ∧ (processAzureResponse p).description.length ≤ 200
    ∧ (∀ c ∈ (processAzureResponse p).description.data, c ≠ '\n')
    ∧ (processAzureResponse p).dominant_colors.length ≤ 5
    ∧ (∀ x ∈ (processAzureResponse p).dominant_colors,
        (∃ src ∈ p.dominantColors.getD [], startsWithHash (pyStrip src) = true
            ∧ x = upcase (pyStrip src))
        ∨ isHashHex7 x = true)
    ∧ (∀ kv ∈ (processAzureResponse p).confidence_scores, ∃ tg ∈ p.tags.getD [],
        kv = (tg.name, tg.confidence)) := by
  refine ⟨?_, ?_, ?_, ?_, ?_, ?_, ?_, ?_⟩
  · show (cleanTags (extractTagNames p)).length ≤ 8
    unfold cleanTags
    exact List.length_take_le 8 _
  · intro t ht
    rcases mem_cleanTags ht with ⟨src, hsrc, rfl, hlen1, hlen2⟩
    rcases mem_extractTagNames hsrc with ⟨tg, htg, rfl, hconf⟩
    exact ⟨tg, htg, rfl, hlen1, hlen2, hconf⟩
  · refine ⟨_, rfl, ?_, cleanTags_extract_eq p⟩
    exact (List.take_sublist 8 _).trans ((List.filter_sublist _).trans
      ((List.take_sublist 10 _).trans (List.filter_sublist _)))
  · exact cleanDescription_length _
  · exact cleanDescription_no_newline _
  · show (formatColors (extractColors p)).length ≤ 5
    unfold formatColors
    exact List.length_take_le 5 _
  · intro x hx
    rcases formatColors_inv _ x hx with ⟨src, hsrc, hh, rfl⟩ | hvalid
    · refine Or.inl ⟨src, ?_, hh, rfl⟩
      revert hsrc
      unfold extractColors
      cases hcols : p.dominantColors with
      | none =>
        intro h
        simp at h
      | some cs =>
        intro h
        simpa using (List.take_sublist 5 cs).subset h
    · exact Or.inr hvalid
  · exact extractConfidence_sources p

theorem c5_witness :
    (processAzureResponse ⟨some [⟨"dog", mkRat 3 4⟩], some ["a dog"], some ["red"]⟩).tags.length ≤ 8
    ∧ (∀ t ∈ (processAzureResponse ⟨some [⟨"dog", mkRat 3 4⟩], some ["a dog"], some ["red"]⟩).tags,
        ∃ tg ∈ (some [AzureTag.mk "dog" (mkRat 3 4)]).getD [],
        t = pyStrip (downcase tg.name) ∧ 2 < tg.name.length ∧ tg.name.length < 50
        ∧ mkRat 1 2 < tg.confidence)
    ∧ (∃ kept : List AzureTag,
        kept = (((((some [AzureTag.mk "dog" (mkRat 3 4)]).getD []).filter
              (fun tg => mkRat 1 2 < tg.confidence)).take 10).filter
            (fun tg => decide (tg.name ≠ "" ∧ 2 < tg.name.length
              ∧ tg.name.length < 50))).take 8
        ∧ List.Sublist kept ((some [AzureTag.mk "dog" (mkRat 3 4)]).getD [])
        ∧ (processAzureResponse ⟨some [⟨"dog", mkRat 3 4⟩], some ["a dog"], some ["red"]⟩).tags
            = kept.map (fun tg => pyStrip (downcase tg.name)))
    ∧ (processAzureResponse ⟨some [⟨"dog", mkRat 3 4⟩], some ["a dog"], some ["red"]⟩).description.length ≤ 200
    ∧ (∀ c ∈ (processAzureResponse ⟨some [⟨"dog", mkRat 3 4⟩], some ["a dog"], some ["red"]⟩).description.data,
        c ≠ '\n')
    ∧ (processAzureResponse ⟨some [⟨"dog", mkRat 3 4⟩], some ["a dog"], some ["red"]⟩).dominant_colors.length ≤ 5
    ∧ (∀ x ∈ (processAzureResponse ⟨some [⟨"dog", mkRat 3 4⟩], some ["a dog"], some ["red"]⟩).dominant_colors,
        (∃ src ∈ (some ["red"]).getD ([] : List String), startsWithHash (pyStrip src) = true
            ∧ x = upcase (pyStrip src))
        ∨ isHashHex7 x = true)
    ∧ (∀ kv ∈ (processAzureResponse ⟨some [⟨"dog", mkRat 3 4⟩], some ["a dog"], some ["red"]⟩).confidence_scores,
        ∃ tg ∈ (some [AzureTag.mk "dog" (mkRat 3 4)]).getD [],
        kv = (tg.name, tg.confidence)) :=
  c5_normalized_invariants ⟨some [⟨"dog", mkRat 3 4⟩], some ["a dog"], some ["red"]⟩

/-! ## Stable-sort lemmas for the similarity scorer.  Python's `list.sort`
is a stable sort, and with `reverse=True` equal keys still keep their
input order; `List.insertionSort simItemGE` computes exactly that. -/

theorem filter_score_orderedInsert (x : SimItem) (l : List SimItem) (q : ℚ) :
    (List.orderedInsert simItemGE x l).filter (fun y => y.similarity_score = q)
      = ((x :: l).filter (fun y => y.similarity_score = q)) := by
  induction l with
  | nil => rfl
  | cons y l ih =>
    by_cases hxy : simItemGE x y
    · simp only [List.orderedInsert, if_pos hxy]
    · simp only [List.orderedInsert, if_neg hxy]
      by_cases px : x.similarity_score = q
      · have hy : ¬ (y.similarity_score = q) := by
          intro h
          exact hxy (by simp [simItemGE, h, px])
        simp [List.filter_cons, px, hy, ih]
      · simp [List.filter_cons, px, ih]

theorem filter_score_insertionSort (l : List SimItem) (q : ℚ) :
    (List.insertionSort simItemGE l).filter (fun y => y.similarity_score = q)
      = l.filter (fun y => y.similarity_score = q) := by
  induction l with
  | nil => rfl
  | cons x l ih =>
    rw [List.insertionSort, filter_score_orderedInsert]
    simp only [List.filter_cons, ih]

theorem insertionSort_score_sorted (l : List SimItem) :
    List.Pairwise simItemGE (List.insertionSort simItemGE l) := by
  haveI : IsTotal SimItem simItemGE :=
    ⟨fun a b => le_total b.similarity_score a.similarity_score⟩
  haveI : IsTrans SimItem simItemGE :=
    ⟨fun a b c hab hbc => le_trans hbc hab⟩
  exact List.sorted_insertionSort simItemGE l

theorem ratMul_eq (a b : ℚ) : ratMul a b = a * b := by
  unfold ratMul
  rw [Rat.mkRat_eq_div]
  push_cast
  rw [← div_mul_div_comm, Rat.num_div_den, Rat.num_div_den]

theorem ratAdd_eq (a b : ℚ) : ratAdd a b = a + b := by
  have ha : ((a.den : ℚ)) ≠ 0 := by exact_mod_cast a.den_nz
  have hb : ((b.den : ℚ)) ≠ 0 := by exact_mod_cast b.den_nz
  unfold ratAdd
  rw [Rat.mkRat_eq_div]
  push_cast
  rw [show (a + b : ℚ) = ((a.num : ℚ) / a.den + (b.num : ℚ) / b.den : ℚ) by
        rw [Rat.num_div_den, Rat.num_div_den],
      div_add_div _ _ ha hb]
  ring_nf

/-- C7 counterexample: with input order `[c7CandB, c7CandA]` and threshold
0.3, both candidates clear the threshold and their unrounded combined
scores differ (`283/850 < 1/3`), yet both report 0.333; because the code
sorts by the rounded reported score, the output keeps input order
`[2, 1]`, which is not descending in combined score. -/
theorem c7_counterexample :
    combinedSimilarity c7Source c7CandB < combinedSimilarity c7Source c7CandA
    ∧ mkRat 3 10 ≤ combinedSimilarity c7Source c7CandB
    ∧ mkRat 3 10 ≤ combinedSimilarity c7Source c7CandA
    ∧ round3 (combinedSimilarity c7Source c7CandB)
        = round3 (combinedSimilarity c7Source c7CandA)
    ∧ (findSimilar c7Source [c7CandB, c7CandA] (mkRat 3 10) 10).map SimItem.id
        = [2, 1] := by
  decide

/-- C7 (amended): the scorer's output is the first `limit` entries of a
list that (a) is a permutation of the entries built, in input order, for
exactly the candidates whose unrounded combined score reaches the
threshold (inclusive), (b) is sorted descending by the reported combined
score rounded to 3 decimal places, and (c) keeps candidates whose rounded
scores tie in their relative input order. -/
theorem c7_filter_sort_truncate (source : ImageRow) (cands : List ImageRow)
    (threshold : ℚ) (limit : Nat) :
    ∃ sorted : List SimItem,
      findSimilar source cands threshold limit = sorted.take limit
      ∧ sorted.Perm (scoredCandidates source cands threshold)
      ∧ List.Pairwise (fun a b => b.similarity_score ≤ a.similarity_score) sorted
      ∧ (∀ q : ℚ, sorted.filter (fun y => y.similarity_score = q)
          = (scoredCandidates source cands threshold).filter
              (fun y => y.similarity_score = q))
      ∧ (∀ img ∈ cands, threshold ≤ combinedSimilarity source img →
          scoreItem source img ∈ sorted)
      ∧ ∀ y ∈ sorted, ∃ img ∈ cands,
          threshold ≤ combinedSimilarity source img ∧ y = scoreItem source img := by
  refine ⟨List.insertionSort simItemGE (scoredCandidates source cands threshold),
    rfl, List.perm_insertionSort _ _, insertionSort_score_sorted _,
    fun q => filter_score_insertionSort _ q, ?_, ?_⟩
  · intro img hmem hthr
    rw [(List.perm_insertionSort simItemGE _).mem_iff]
    exact List.mem_filterMap.mpr ⟨img, hmem, by rw [if_pos hthr]⟩
  · intro y hy
    rw [(List.perm_insertionSort simItemGE _).mem_iff] at hy
    rcases List.mem_filterMap.mp hy with ⟨img, hmem, hsome⟩
    by_cases hthr : threshold ≤ combinedSimilarity source img
    · rw [if_pos hthr] at hsome
      exact ⟨img, hmem, hthr, (Option.some.inj hsome).symm⟩
    · rw [if_neg hthr] at hsome
      cases hsome

theorem c7_witness :
    ∃ sorted : List SimItem,
      findSimilar c7Source [c7CandA] 0 10 = sorted.take 10
      ∧ sorted.Perm (scoredCandidates c7Source [c7CandA] 0)
      ∧ List.Pairwise (fun a b => b.similarity_score ≤ a.similarity_score) sorted
      ∧ (∀ q : ℚ, sorted.filter (fun y => y.similarity_score = q)
          = (scoredCandidates c7Source [c7CandA] 0).filter
              (fun y => y.similarity_score = q))
      ∧ (∀ img ∈ [c7CandA], (0 : ℚ) ≤ combinedSimilarity c7Source img →
          scoreItem c7Source img ∈ sorted)
      ∧ ∀ y ∈ sorted, ∃ img ∈ [c7CandA],
          (0 : ℚ) ≤ combinedSimilarity c7Source img ∧ y = scoreItem c7Source img :=
  c7_filter_sort_truncate c7Source [c7CandA] 0 10

/-- C8: the combined score computed by the scorer equals
`tagSimilarity * 0.7 + descSimilarity * 0.3`; the Jaccard of two empty
tag sets is 0; and on the worked example — source tags `{a,b,c}` with
description `"a cat sat"` against candidate tags `{b,c,d}` with
description `"a cat ran"` — tag similarity is 1/2, description similarity
is 1/2, the combined score is 1/2, its 3-decimal reported value is 0.5,
the candidate is excluded at threshold 0.7 and included (with reported
scores 0.5) at threshold 0.4. -/
theorem c8_jaccard_scoring :
    (∀ s i : ImageRow, combinedSimilarity s i
        = tagSimilarity s i * (7 / 10) + descSimilarity s i * (3 / 10))
    ∧ tagSimilarity ⟨0, [], ""⟩ ⟨1, [], ""⟩ = 0
    ∧ tagSimilarity ⟨0, ["a", "b", "c"], "a cat sat"⟩
        ⟨2, ["b", "c", "d"], "a cat ran"⟩ = mkRat 1 2
    ∧ descSimilarity ⟨0, ["a", "b", "c"], "a cat sat"⟩
        ⟨2, ["b", "c", "d"], "a cat ran"⟩ = mkRat 1 2
    ∧ combinedSimilarity ⟨0, ["a", "b", "c"], "a cat sat"⟩
        ⟨2, ["b", "c", "d"], "a cat ran"⟩ = mkRat 1 2
    ∧ round3 (combinedSimilarity ⟨0, ["a", "b", "c"], "a cat sat"⟩
        ⟨2, ["b", "c", "d"], "a cat ran"⟩) = mkRat 1 2
    ∧ findSimilar ⟨0, ["a", "b", "c"], "a cat sat"⟩
        [⟨2, ["b", "c", "d"], "a cat ran"⟩] (mkRat 7 10) 10 = []
    ∧ findSimilar ⟨0, ["a", "b", "c"], "a cat sat"⟩
        [⟨2, ["b", "c", "d"], "a cat ran"⟩] (mkRat 4 10) 10
        = [⟨2, mkRat 1 2, mkRat 1 2, mkRat 1 2⟩] := by
  refine ⟨?_, by decide, by decide, by decide, by decide, by decide, by decide,
    by decide⟩
  intro s i
  unfold combinedSimilarity
  rw [ratAdd_eq, ratMul_eq, ratMul_eq]
  have h7 : (mkRat 7 10 : ℚ) = 7 / 10 := by
    rw [Rat.mkRat_eq_div]
    norm_num
  have h3 : (mkRat 3 10 : ℚ) = 3 / 10 := by
    rw [Rat.mkRat_eq_div]
    norm_num
  rw [h7, h3]

end Rescale
